import Mathlib

/-!
Shallow embedding of the LocalGrid library (`src/localgrid/core.py` and
`src/localgrid/__init__.py`): the context-window lookup
`get_model_token_limit`, the tokenizer resolution `_get_tokenizer`
(here `getTokenizer`) and the token-count dispatch `count_tokens`,
together with theorems about their behaviour.
-/

/-- Membership of a single character in a character list; models the Python
test `c in s` for a one-character needle. -/
def charIn (c : Char) : List Char → Bool
  | [] => false
  | x :: xs => x == c || charIn c xs

/-- Python `c in s` for a single character `c`. -/
def pyIn (c : Char) (s : String) : Bool := charIn c s.data

/-- Python `s.upper()` on ASCII text. -/
def pyUpper (s : String) : String := ⟨s.data.map Char.toUpper⟩

/-- Strip leading and trailing whitespace from a character list; models the
implicit whitespace stripping of CPython `int(s)`. -/
def stripChars (l : List Char) : List Char :=
  ((l.dropWhile Char.isWhitespace).reverse.dropWhile Char.isWhitespace).reverse

/-- Fold a list of decimal digit characters into the number they denote. -/
def digitsVal (l : List Char) : Nat := l.foldl (fun a c => a * 10 + (c.toNat - 48)) 0

/-- Parse a nonempty all-digit character list; `none` otherwise. -/
def parseDigits (l : List Char) : Option Nat :=
  if l.isEmpty then none
  else if l.all Char.isDigit then some (digitsVal l) else none

/-- Models CPython `int(s)` on ASCII strings: optional surrounding
whitespace, an optional sign, then a nonempty run of decimal digits; any
other shape raises `ValueError`, modelled as `none`. (Underscore digit
grouping is not modelled.) -/
def pythonInt (s : String) : Option Int :=
  match stripChars s.data with
  | '+' :: rest => (parseDigits rest).map (fun n => (n : Int))
  | '-' :: rest => (parseDigits rest).map (fun n => -(n : Int))
  | l => (parseDigits l).map (fun n => (n : Int))

/-- The decimal digit characters. -/
def digitChar : Nat → Char
  | 0 => '0'
  | 1 => '1'
  | 2 => '2'
  | 3 => '3'
  | 4 => '4'
  | 5 => '5'
  | 6 => '6'
  | 7 => '7'
  | 8 => '8'
  | 9 => '9'
  | _ => '0'

/-- Fuel-based decimal expansion of a natural number (most significant digit
first, pushed onto `acc`). -/
def natToDigitsAux : Nat → Nat → List Char → List Char
  | 0, _, acc => acc
  | fuel + 1, n, acc =>
    if n < 10 then digitChar n :: acc
    else natToDigitsAux fuel (n / 10) (digitChar (n % 10) :: acc)

/-- Models Python `str` applied to an `int` value: decimal digits with a
leading `-` sign for negative numbers. -/
def pyStrOfInt (n : Int) : String :=
  if n < 0 then ⟨'-' :: natToDigitsAux (n.natAbs + 1) n.natAbs []⟩
  else ⟨natToDigitsAux (n.natAbs + 1) n.natAbs []⟩

/-- A JSON-ish `context` field value as stored in a provider file: either a
JSON number (a Python `int`) or a JSON string. -/
inductive ContextVal where
  | pint (n : Int)
  | pstr (s : String)
deriving DecidableEq

/-- Python `str(context_str)`. -/
def pyStr : ContextVal → String
  | .pint n => pyStrOfInt n
  | .pstr s => s

/-- Python `int(context_str)` applied to the raw stored value: an `int`
passes through, a string goes through string parsing. -/
def csAsInt : ContextVal → Option Int
  | .pint n => some n
  | .pstr s => pythonInt s

/-- `.replace("K", "")` applied to an already uppercased string: every `'K'`
character is removed. -/
def stripK (s : String) : String := ⟨s.data.filter (fun c => c != 'K')⟩

/-- The context interpretation inside `get_model_token_limit`'s `try` block:
`some v` means the block returns `v`; `none` means the `int` conversion
raised and the exception was swallowed (`pass`), so the provider scan
continues. -/
def interpretContext (cs : ContextVal) : Option Int :=
  if pyIn 'K' (pyUpper (pyStr cs)) then
    (pythonInt (stripK (pyUpper (pyStr cs)))).map (fun n => n * 1024)
  else
    (csAsInt cs).map (fun n => if n ≤ 1000 then n * 1024 else n)

/-- A variant's JSON object (e.g. `{"context": "128K"}`), as an
insertion-ordered association list. -/
abbrev VariantRecord := List (String × ContextVal)

/-- One entry of a provider file: the record stored under a `parent_model`
name, holding its `variants` dictionary (tag → variant object). -/
structure ModelRecord where
  variants : List (String × VariantRecord)
deriving DecidableEq

/-- One provider's database: `parent_model` name → record, an
insertion-ordered dictionary. -/
abbrev Provider := List (String × ModelRecord)

/-- Python `dict.get`: the first binding of the key, if any. -/
def lookupA {α : Type} : List (String × α) → String → Option α
  | [], _ => none
  | (k, v) :: rest, key => if k = key then some v else lookupA rest key

/-- Split a character list at the first occurrence of `c`; `none` when `c`
does not occur. -/
def splitOnceAux (c : Char) : List Char → Option (List Char × List Char)
  | [] => none
  | x :: xs =>
    if x == c then some ([], xs)
    else (splitOnceAux c xs).map (fun p => (x :: p.1, p.2))

/-- Python `model_name.split(':', 1)` fused with the enclosing
`':' in model_name` guard: `some (parent, tag)` when a colon occurs,
`none` otherwise. -/
def pySplitColon (s : String) : Option (String × String) :=
  (splitOnceAux ':' s.data).map (fun p => (⟨p.1⟩, ⟨p.2⟩))

/-- `LocalGrid.DEFAULT_TOKEN_LIMIT`. -/
def DEFAULT_TOKEN_LIMIT : Int := 8192

/-- `LocalGrid.FALLBACK_TOKEN_RATIO`. -/
def FALLBACK_TOKEN_RATIO : Nat := 4

/-- The provider loop of `get_model_token_limit`: for each provider (in dict
order) look up `parent` then `variants[tag]`; a missing or falsy (empty)
`tag_data` skips to the next provider; otherwise the `context` value
(defaulting to `"8K"`) is interpreted, returning its value on success and
continuing the scan when the conversion raises. -/
def resolveProviders (parent tag : String) : List Provider → Int
  | [] => DEFAULT_TOKEN_LIMIT
  | p :: rest =>
    match lookupA ((lookupA p parent).getD ⟨[]⟩).variants tag with
    | none => resolveProviders parent tag rest
    | some td =>
      if td.isEmpty then resolveProviders parent tag rest
      else
        match interpretContext ((lookupA td "context").getD (ContextVal.pstr "8K")) with
        | some v => v
        | none => resolveProviders parent tag rest

/-- An offline tokenizer handle. `enc text false` is the token id sequence
of `text` with special-token interpretation disabled
(`disallowed_special=()` for the tiktoken engine, `add_special_tokens=False`
for a Hugging Face tokenizer); `noEnc` stands for a truthy object without an
`encode` attribute. -/
inductive Tokenizer where
  | tiktok (enc : String → Bool → List Nat)
  | hf (enc : String → Bool → List Nat)
  | noEnc

/-- The per-instance state set up by `LocalGrid.__init__`: the metadata
store `_db` (provider values in dict order), the `_tokenizer_cache` and the
`_default_tokenizer` (`none` when `tiktoken.get_encoding` failed). -/
structure GridState where
  db : List Provider
  cache : List (String × Tokenizer)
  defaultTok : Option Tokenizer

/-- The filesystem/loader environment `_get_tokenizer` runs against:
the module directory, `os.path.exists`, and `AutoTokenizer.from_pretrained`
(`none` models an exception during instantiation). -/
structure Env where
  basePath : String
  pathExists : String → Bool
  loadTokenizer : String → Option Tokenizer

/-- `os.path.join(base_path, "tokenizers", fam)`. -/
def tokenizerPath (env : Env) (fam : String) : String :=
  env.basePath ++ "/tokenizers/" ++ fam

/-- Python substring test `needle in hay`. -/
def pySubstrAux (needle : List Char) : List Char → Bool
  | [] => needle.isEmpty
  | c :: rest => needle.isPrefixOf (c :: rest) || pySubstrAux needle rest

/-- Python substring containment on strings. -/
def pySubstr (needle hay : String) : Bool := pySubstrAux needle.data hay.data

/-- `LocalGrid.TOKENIZER_MAP`, listed in source-literal order. The Python
object is a `set`, so its real iteration order is an unspecified permutation
of this list; theorems quantify over that order where it matters. -/
def TOKENIZER_MAP : List String :=
  ["aya", "codellama", "codestral", "command-r", "dbrx", "deepseek",
   "falcon", "gemma", "granite", "llama", "mistral", "mixtral", "olmo",
   "phi", "qwen", "solar", "starcoder", "yi"]

/-- The family-detection loop of `_get_tokenizer`: the first member of the
iteration order that is a substring of the identifier's family part. -/
def detectFamily (order : List String) (familyName : String) : Option String :=
  order.find? (fun family => pySubstr family familyName)

/-- Result of one `_get_tokenizer` call: the returned tokenizer (if any),
the cache afterwards, the arguments of the `os.path.exists` checks and of
the `AutoTokenizer.from_pretrained` calls it performed. -/
structure TokResult where
  tok : Option Tokenizer
  cache : List (String × Tokenizer)
  checks : List String
  loads : List String

/-- `LocalGrid._get_tokenizer`: split the identifier, detect a family by
substring scan, consult the cache, otherwise check the bundled path and try
to load, caching only a successful load; every failure route returns the
default tokenizer. -/
def getTokenizer (env : Env) (order : List String) (st : GridState) (model_name : String) : TokResult :=
  match pySplitColon model_name with
  | none => ⟨st.defaultTok, st.cache, [], []⟩
  | some pt =>
    match detectFamily order pt.1 with
    | none => ⟨st.defaultTok, st.cache, [], []⟩
    | some fam =>
      match lookupA st.cache fam with
      | some t => ⟨some t, st.cache, [], []⟩
      | none =>
        if env.pathExists (tokenizerPath env fam) then
          match env.loadTokenizer (tokenizerPath env fam) with
          | some t =>
            ⟨some t, st.cache ++ [(fam, t)], [tokenizerPath env fam], [tokenizerPath env fam]⟩
          | none =>
            ⟨st.defaultTok, st.cache, [tokenizerPath env fam], [tokenizerPath env fam]⟩
        else ⟨st.defaultTok, st.cache, [tokenizerPath env fam], []⟩

/-- `LocalGrid.count_tokens`: resolve a tokenizer and dispatch on its kind;
with no usable tokenizer fall back to `len(text) // FALLBACK_TOKEN_RATIO`. -/
def count_tokens (env : Env) (order : List String) (st : GridState) (text model_name : String) : Int :=
  match (getTokenizer env order st model_name).tok with
  | some (Tokenizer.tiktok enc) => ((enc text false).length : Int)
  | some (Tokenizer.hf enc) => ((enc text false).length : Int)
  | some Tokenizer.noEnc => ((text.length / FALLBACK_TOKEN_RATIO : Nat) : Int)
  | none => ((text.length / FALLBACK_TOKEN_RATIO : Nat) : Int)

/-- `LocalGrid.get_model_token_limit`: split at the first colon and scan the
providers; an identifier without a colon yields the default immediately. -/
def get_model_token_limit (st : GridState) (model_name : String) : Int :=
  match pySplitColon model_name with
  | some pt => resolveProviders pt.1 pt.2 st.db
  | none => DEFAULT_TOKEN_LIMIT

/-- Run a sequence of `_get_tokenizer` resolutions (one per `count_tokens`
call) threading the cache; returns the final state and the concatenated
load log (the `from_pretrained` call arguments, in order). -/
def runCalls (env : Env) (order : List String) : GridState → List String → GridState × List String
  | st, [] => (st, [])
  | st, n :: ns =>
    match runCalls env order ⟨st.db, (getTokenizer env order st n).cache, st.defaultTok⟩ ns with
    | (st', ls) => (st', (getTokenizer env order st n).loads ++ ls)

/-- The top-level names bound in module `localgrid.core` (its imports and
its one class definition). -/
def coreModuleNames : List String :=
  ["os", "AutoTokenizer", "json", "resources", "tiktoken", "LocalGrid"]

/-- The names `localgrid/__init__.py` imports from `.core`. -/
def initImportedNames : List String := ["usage", "count", "limit", "preload"]

/-- Outcome of `import localgrid`. -/
inductive ImportOutcome where
  | ok
  | importError
deriving DecidableEq

/-- `from .core import (usage, count, limit, preload)` as executed by the
package `__init__`: the import succeeds only when every requested name is
bound in the core module, and raises `ImportError` otherwise. -/
def importLocalgridPackage : ImportOutcome :=
  if initImportedNames.all (fun n => coreModuleNames.contains n) then ImportOutcome.ok
  else ImportOutcome.importError

/-- The context-interpretation rule as worded by the specification: a value
containing `K` (case-insensitively) is stripped and scaled by 1024, a value
parsing to an integer ≤ 1000 is scaled by 1024, a value parsing to a larger
integer is taken literally, and anything unparseable yields the fixed
default 8192. -/
def specContextRule (cs : ContextVal) : Int :=
  if pyIn 'K' (pyUpper (pyStr cs)) then
    match pythonInt (stripK (pyUpper (pyStr cs))) with
    | some n => n * 1024
    | none => 8192
  else
    match csAsInt cs with
    | some n => if n ≤ 1000 then n * 1024 else n
    | none => 8192

/-- One provider's contribution to the scan: `some v` exactly when this
provider has a truthy `variants[tag]` object whose context value parses
under the interpretation rule; `none` means the scan skips it. -/
def providerResolve (parent tag : String) (p : Provider) : Option Int :=
  match lookupA ((lookupA p parent).getD ⟨[]⟩).variants tag with
  | none => none
  | some td =>
    if td.isEmpty then none
    else interpretContext ((lookupA td "context").getD (ContextVal.pstr "8K"))

/-- Every `context` value stored anywhere in the db that parses under the
interpretation rule parses to a positive number. -/
def contextsPositive (db : List Provider) : Prop :=
  ∀ p ∈ db, ∀ pm ∈ p, ∀ tv ∈ pm.2.variants, ∀ kv ∈ tv.2,
    kv.1 = "context" → 0 < (interpretContext kv.2).getD 1

instance (db : List Provider) : Decidable (contextsPositive db) := by
  unfold contextsPositive
  infer_instance

/-- A concrete environment in which no bundled tokenizer path exists and
every instantiation attempt fails. -/
def failingFsEnv : Env := ⟨"", fun _ => false, fun _ => none⟩

/-- A concrete environment in which every bundled path exists and every
load succeeds (with a plain handle). -/
def alwaysLoadEnv : Env := ⟨"", fun _ => true, fun _ => some Tokenizer.noEnc⟩

/-- An environment whose paths all exist but whose loads all fail. -/
def pathsExistEnv : Env := ⟨"", fun _ => true, fun _ => none⟩

/-- One concrete iteration order of the `TOKENIZER_MAP` set in which
`"llama"` happens to be visited before `"codellama"`. -/
def shuffledFamilyOrder : List String :=
  ["llama", "aya", "codellama", "codestral", "command-r", "dbrx", "deepseek",
   "falcon", "gemma", "granite", "mistral", "mixtral", "olmo", "phi", "qwen",
   "solar", "starcoder", "yi"]

example : interpretContext (ContextVal.pstr "128K") = some 131072 := by decide
example : interpretContext (ContextVal.pstr "128k") = some 131072 := by decide
example : interpretContext (ContextVal.pint 128) = some 131072 := by decide
example : interpretContext (ContextVal.pint 8192) = some 8192 := by decide
example : interpretContext (ContextVal.pstr "N/A") = none := by decide
example : interpretContext (ContextVal.pstr "8K") = some 8192 := by decide
example : interpretContext (ContextVal.pint 0) = some 0 := by decide
example : pySplitColon "llama3.1:latest" = some ("llama3.1", "latest") := by decide
example : pySplitColon "model-no-colon" = none := by decide
example : detectFamily TOKENIZER_MAP "codellama" = some "codellama" := by decide
example : pySubstr "llama" "codellama" = true := by decide
example :
    get_model_token_limit
      ⟨[[("llama3.1", ⟨[("latest", [("context", ContextVal.pstr "128K")])]⟩)]], [], none⟩
      "llama3.1:latest" = 131072 := by decide
example : importLocalgridPackage = ImportOutcome.importError := by decide

theorem splitOnceAux_eq_none_of_charIn_false (c : Char) (l : List Char)
    (h : charIn c l = false) : splitOnceAux c l = none := by
  induction l with
  | nil => rfl
  | cons x xs ih =>
    unfold charIn at h
    rw [Bool.or_eq_false_iff] at h
    unfold splitOnceAux
    rw [if_neg (by simp [h.1]), ih h.2]
    rfl

theorem pySplitColon_eq_none (s : String) (h : pyIn ':' s = false) :
    pySplitColon s = none := by
  unfold pySplitColon
  rw [splitOnceAux_eq_none_of_charIn_false ':' s.data h]
  rfl

theorem lookupA_mem {α : Type} (k : String) (v : α) (l : List (String × α))
    (h : lookupA l k = some v) : (k, v) ∈ l := by
  induction l with
  | nil => simp [lookupA] at h
  | cons p rest ih =>
    obtain ⟨k', v'⟩ := p
    unfold lookupA at h
    split at h
    · rename_i hk
      injection h with hv
      subst hk
      subst hv
      exact List.mem_cons_self _ _
    · exact List.mem_cons_of_mem _ (ih h)

theorem lookupA_append {α : Type} (l l' : List (String × α)) (k : String) :
    lookupA (l ++ l') k
      = match lookupA l k with
        | some v => some v
        | none => lookupA l' k := by
  induction l with
  | nil => simp [lookupA]
  | cons p rest ih =>
    obtain ⟨k', v'⟩ := p
    by_cases hk : k' = k
    · simp [lookupA, hk]
    · simp only [List.cons_append, lookupA, if_neg hk]
      exact ih

theorem string_data_append (a b : String) : (a ++ b).data = a.data ++ b.data := by
  cases a
  cases b
  rfl

theorem string_data_inj (a b : String) (h : a.data = b.data) : a = b := by
  cases a
  cases b
  exact congrArg String.mk h

theorem tokenizerPath_inj (env : Env) (g fam : String)
    (h : tokenizerPath env g = tokenizerPath env fam) : g = fam := by
  unfold tokenizerPath at h
  have hd := congrArg String.data h
  rw [string_data_append, string_data_append, string_data_append,
    string_data_append, List.append_assoc, List.append_assoc] at hd
  have h1 := List.append_cancel_left hd
  have h2 := List.append_cancel_left h1
  exact string_data_inj _ _ h2

theorem specContextRule_eq_getD (cs : ContextVal) :
    specContextRule cs = (interpretContext cs).getD 8192 := by
  unfold specContextRule interpretContext
  by_cases h : pyIn 'K' (pyUpper (pyStr cs)) = true
  · rw [if_pos h, if_pos h]
    cases pythonInt (stripK (pyUpper (pyStr cs))) <;> rfl
  · rw [if_neg h, if_neg h]
    cases csAsInt cs <;> rfl

/-- Claim C10: the package `__init__` imports `usage`, `count`, `limit` and
`preload` from the core module, none of which the core module binds, so
`import localgrid` raises `ImportError`; the core module itself binds
`LocalGrid`, so the two public operations are reachable only by importing
the core module directly. -/
theorem package_import_fails :
    importLocalgridPackage = ImportOutcome.importError
    ∧ initImportedNames.all (fun n => !(coreModuleNames.contains n)) = true
    ∧ coreModuleNames.contains "LocalGrid" = true := by
  decide

/-- Claim C8: `count_tokens` is a total function of its inputs (it cannot
raise) and its result is a non-negative integer for every text and model
identifier, each resolved tokenizer's encode capability being modelled as
total. -/
theorem count_tokens_nonneg (env : Env) (order : List String) (st : GridState)
    (text model_name : String) :
    0 ≤ count_tokens env order st text model_name := by
  unfold count_tokens
  split <;> exact Int.natCast_nonneg _

/-- Claim C4: the tier dispatch of `count_tokens` — with a resolved tiktoken
or Hugging Face tokenizer the count is the length of that tokenizer's
encoding of the text with special-token interpretation disabled; with no
tokenizer available at all it is `len(text) // 4`. -/
theorem count_tokens_tiers (env : Env) (order : List String) (st : GridState)
    (text model_name : String) :
    (∀ e, (getTokenizer env order st model_name).tok = some (Tokenizer.tiktok e) →
      count_tokens env order st text model_name = ((e text false).length : Int))
    ∧ (∀ e, (getTokenizer env order st model_name).tok = some (Tokenizer.hf e) →
      count_tokens env order st text model_name = ((e text false).length : Int))
    ∧ ((getTokenizer env order st model_name).tok = none →
      count_tokens env order st text model_name
        = ((text.length / FALLBACK_TOKEN_RATIO : Nat) : Int)) := by
  refine ⟨fun e h => ?_, fun e h => ?_, fun h => ?_⟩ <;> unfold count_tokens <;> rw [h]

/-- Claim C4 witness: with no tokenizer available at all (default engine
failed to construct, identifier has no family), an 11-character text is
counted as `11 // 4 = 2`. -/
theorem count_tokens_tiers_witness :
    count_tokens failingFsEnv TOKENIZER_MAP ⟨[], [], none⟩ "hello world" "gpt-4-mini" = 2 := by
  have h := (count_tokens_tiers failingFsEnv TOKENIZER_MAP ⟨[], [], none⟩
    "hello world" "gpt-4-mini").2.2 rfl
  rw [h]
  decide

/-- Claim C5: an identifier without a separator makes `get_model_token_limit`
return the fixed default 8192 whatever the store holds, and makes
`_get_tokenizer` return the default tokenizer with no family detection, no
filesystem check, no load and no cache change. -/
theorem no_separator_defaults (model_name : String) (h : pyIn ':' model_name = false) :
    (∀ st : GridState, get_model_token_limit st model_name = DEFAULT_TOKEN_LIMIT)
    ∧ (∀ (env : Env) (order : List String) (st : GridState),
        getTokenizer env order st model_name = ⟨st.defaultTok, st.cache, [], []⟩) := by
  constructor
  · intro st
    unfold get_model_token_limit
    rw [pySplitColon_eq_none _ h]
  · intro env order st
    unfold getTokenizer
    rw [pySplitColon_eq_none _ h]

/-- Claim C5 witness: `"model-no-colon"` yields the default limit even
against a store that would resolve differently, and the default tokenizer
path with an untouched cache. -/
theorem no_separator_defaults_witness :
    get_model_token_limit
      ⟨[[("model-no-colon", ⟨[("x", [("context", ContextVal.pint 9000)])]⟩)]], [], none⟩
      "model-no-colon" = DEFAULT_TOKEN_LIMIT
    ∧ getTokenizer failingFsEnv TOKENIZER_MAP ⟨[], [], some Tokenizer.noEnc⟩
        "model-no-colon" = ⟨some Tokenizer.noEnc, [], [], []⟩ := by
  constructor
  · exact (no_separator_defaults "model-no-colon" (by decide)).1 _
  · exact (no_separator_defaults "model-no-colon" (by decide)).2 failingFsEnv TOKENIZER_MAP _

theorem resolveProviders_pos (parent tag : String) (provs : List Provider)
    (h : ∀ p ∈ provs, ∀ pm ∈ p, ∀ tv ∈ pm.2.variants, ∀ kv ∈ tv.2,
      kv.1 = "context" → 0 < (interpretContext kv.2).getD 1) :
    0 < resolveProviders parent tag provs := by
  induction provs with
  | nil =>
    show (0 : Int) < DEFAULT_TOKEN_LIMIT
    decide
  | cons p rest ih =>
    have hrest : ∀ q ∈ rest, ∀ pm ∈ q, ∀ tv ∈ pm.2.variants, ∀ kv ∈ tv.2,
        kv.1 = "context" → 0 < (interpretContext kv.2).getD 1 :=
      fun q hq => h q (List.mem_cons_of_mem _ hq)
    unfold resolveProviders
    cases hpm : lookupA p parent with
    | none => exact ih hrest
    | some mr =>
      rw [Option.getD_some]
      cases htd : lookupA mr.variants tag with
      | none => exact ih hrest
      | some td =>
        dsimp only
        by_cases he : td.isEmpty = true
        · rw [if_pos he]
          exact ih hrest
        · rw [if_neg he]
          cases hcv : lookupA td "context" with
          | none =>
            rw [Option.getD_none,
              show interpretContext (ContextVal.pstr "8K") = some 8192 from by decide]
            show (0 : Int) < 8192
            decide
          | some cs =>
            rw [Option.getD_some]
            cases hic : interpretContext cs with
            | none => exact ih hrest
            | some v =>
              have hp := h p (List.mem_cons_self _ _) (parent, mr)
                (lookupA_mem _ _ _ hpm) (tag, td) (lookupA_mem _ _ _ htd)
                ("context", cs) (lookupA_mem _ _ _ hcv) rfl
              rw [hic, Option.getD_some] at hp
              exact hp

/-- Claim C1 (amended): `get_model_token_limit` is a total function (it
cannot raise) and returns an integer for every input; the result is
positive whenever every stored `context` value that parses under the
interpretation rule parses to a positive number — a stored value parsing to
zero or a negative integer is, however, returned as a non-positive result. -/
theorem get_model_token_limit_pos (st : GridState) (model_name : String)
    (h : contextsPositive st.db) : 0 < get_model_token_limit st model_name := by
  unfold get_model_token_limit
  cases hs : pySplitColon model_name with
  | none =>
    show (0 : Int) < DEFAULT_TOKEN_LIMIT
    decide
  | some pt => exact resolveProviders_pos pt.1 pt.2 st.db h

/-- Claim C1 counterexample: a stored context value of `0` parses to zero
under the interpretation rule and `get_model_token_limit` returns `0`,
which is not a positive integer. -/
theorem get_model_token_limit_zero_cex :
    get_model_token_limit
      ⟨[[("gemma", ⟨[("2b", [("context", ContextVal.pint 0)])]⟩)]], [], none⟩ "gemma:2b" = 0
    ∧ ¬ (0 < get_model_token_limit
      ⟨[[("gemma", ⟨[("2b", [("context", ContextVal.pint 0)])]⟩)]], [], none⟩ "gemma:2b") := by
  decide

/-- Claim C1 witness: a store whose parseable context values are all
positive yields a positive limit. -/
theorem get_model_token_limit_pos_witness :
    contextsPositive [[("llama3.1", ⟨[("8b", [("context", ContextVal.pint 128)])]⟩)]]
    ∧ 0 < get_model_token_limit
        ⟨[[("llama3.1", ⟨[("8b", [("context", ContextVal.pint 128)])]⟩)]], [], none⟩
        "llama3.1:8b" :=
  ⟨by decide, get_model_token_limit_pos _ "llama3.1:8b" (by decide)⟩

@[simp] theorem lookupA_cons_self {α : Type} (k : String) (v : α)
    (rest : List (String × α)) : lookupA ((k, v) :: rest) k = some v := by
  unfold lookupA
  rw [if_pos rfl]

/-- Claim C2: for an identifier splitting into `parent:tag` found in the
store, the stored context value is interpreted exactly by the spec's rule —
case-insensitive `K` suffix strips and scales by 1024, a parseable integer
≤ 1000 scales by 1024, a parseable integer > 1000 is literal, and an
unparseable value yields the default 8192; a variant object without a
`context` key also yields the default. -/
theorem context_rule_single (model_name parent tag : String) (cs : ContextVal)
    (h : pySplitColon model_name = some (parent, tag)) :
    get_model_token_limit
        ⟨[[(parent, ⟨[(tag, [("context", cs)])]⟩)]], [], none⟩ model_name
      = specContextRule cs
    ∧ get_model_token_limit
        ⟨[[(parent, ⟨[(tag, [("pad", cs)])]⟩)]], [], none⟩ model_name
      = DEFAULT_TOKEN_LIMIT := by
  constructor
  · unfold get_model_token_limit
    rw [h]
    unfold resolveProviders
    rw [lookupA_cons_self, Option.getD_some]
    dsimp only
    rw [lookupA_cons_self]
    dsimp only
    rw [if_neg (by simp), lookupA_cons_self, Option.getD_some, specContextRule_eq_getD]
    cases interpretContext cs <;> rfl
  · unfold get_model_token_limit
    rw [h]
    unfold resolveProviders
    rw [lookupA_cons_self, Option.getD_some]
    dsimp only
    rw [lookupA_cons_self]
    dsimp only
    have hpad : lookupA [(("pad" : String), cs)] "context" = none := by
      unfold lookupA
      rw [if_neg (by decide)]
      rfl
    rw [if_neg (by simp), hpad, Option.getD_none,
      show interpretContext (ContextVal.pstr "8K") = some 8192 from by decide]
    rfl

/-- Claim C2 witness: the stored value `"128K"` resolves to `131072`. -/
theorem context_rule_single_witness :
    get_model_token_limit
      ⟨[[("llama3.1", ⟨[("latest", [("context", ContextVal.pstr "128K")])]⟩)]], [], none⟩
      "llama3.1:latest" = 131072 := by
  have h := (context_rule_single "llama3.1:latest" "llama3.1" "latest"
    (ContextVal.pstr "128K") (by decide)).1
  rw [h]
  decide

theorem resolveProviders_cons (parent tag : String) (p : Provider)
    (rest : List Provider) :
    resolveProviders parent tag (p :: rest)
      = match providerResolve parent tag p with
        | some v => v
        | none => resolveProviders parent tag rest := by
  simp only [resolveProviders]
  unfold providerResolve
  cases lookupA ((lookupA p parent).getD ⟨[]⟩).variants tag with
  | none => rfl
  | some td =>
    dsimp only
    by_cases he : td.isEmpty = true
    · rw [if_pos he, if_pos he]
    · rw [if_neg he, if_neg he]

theorem resolveProviders_eq_scan (parent tag : String) (provs : List Provider) :
    resolveProviders parent tag provs
      = (provs.findSome? (providerResolve parent tag)).getD DEFAULT_TOKEN_LIMIT := by
  induction provs with
  | nil => rfl
  | cons p rest ih =>
    rw [resolveProviders_cons, List.findSome?_cons]
    cases providerResolve parent tag p with
    | none => exact ih
    | some v => rfl

/-- Claim C3 (amended): `get_model_token_limit` scans providers in their
stable stored order and returns the interpreted context of the first
provider whose parent+tag lookup yields a truthy variant object whose
context value parses under the rule; a provider whose matching value fails
to parse (or whose variant object is empty) is skipped and the scan
continues with later providers; the fixed default is returned only when no
provider yields a parseable value. -/
theorem scan_first_parseable (st : GridState) (model_name parent tag : String)
    (h : pySplitColon model_name = some (parent, tag)) :
    get_model_token_limit st model_name
      = (st.db.findSome? (providerResolve parent tag)).getD DEFAULT_TOKEN_LIMIT := by
  unfold get_model_token_limit
  rw [h]
  exact resolveProviders_eq_scan parent tag st.db

/-- Claim C3 counterexample: the first provider matching `m:t` stores the
unparseable context `"N/A"`, yet the result is the second provider's
`"32K"` (32768), not the fixed default the claim requires. -/
theorem scan_first_parseable_cex :
    get_model_token_limit
      ⟨[[("m", ⟨[("t", [("context", ContextVal.pstr "N/A")])]⟩)],
        [("m", ⟨[("t", [("context", ContextVal.pstr "32K")])]⟩)]], [], none⟩ "m:t" = 32768
    ∧ get_model_token_limit
      ⟨[[("m", ⟨[("t", [("context", ContextVal.pstr "N/A")])]⟩)],
        [("m", ⟨[("t", [("context", ContextVal.pstr "32K")])]⟩)]], [], none⟩ "m:t"
      ≠ DEFAULT_TOKEN_LIMIT := by
  decide

/-- Claim C3 witness: a store whose single provider holds `"96K"` under the
looked-up parent+tag resolves, through the scan characterisation, to
`96 * 1024 = 98304`. -/
theorem scan_first_parseable_witness :
    get_model_token_limit
      ⟨[[("q", ⟨[("v", [("context", ContextVal.pstr "96K")])]⟩)]], [], none⟩ "q:v" = 98304 := by
  have h := scan_first_parseable
    ⟨[[("q", ⟨[("v", [("context", ContextVal.pstr "96K")])]⟩)]], [], none⟩ "q:v" "q" "v"
    (by decide)
  rw [h]
  decide

/-- Claim C6: under a legitimate iteration order of the `TOKENIZER_MAP` set
that happens to visit `"llama"` before `"codellama"` (the set is
hash-ordered, so this order can occur), the identifier
`"codellama:latest"` is detected as family `"llama"` and the load is
attempted from `".../tokenizers/llama"` — a path that does not contain the
keyword `"codellama"`, contradicting the claim and the repository's own
family-selection test. -/
theorem codellama_family_order_bug :
    shuffledFamilyOrder.Perm TOKENIZER_MAP
    ∧ detectFamily shuffledFamilyOrder "codellama" = some "llama"
    ∧ (getTokenizer pathsExistEnv shuffledFamilyOrder ⟨[], [], none⟩
        "codellama:latest").loads = ["/tokenizers/llama"]
    ∧ pySubstr "codellama" "/tokenizers/llama" = false := by
  refine ⟨by decide, by decide, ?_, by decide⟩
  rfl

theorem runCalls_cons (env : Env) (order : List String) (st : GridState)
    (n : String) (ns : List String) :
    runCalls env order st (n :: ns)
      = ((runCalls env order ⟨st.db, (getTokenizer env order st n).cache, st.defaultTok⟩ ns).1,
         (getTokenizer env order st n).loads
           ++ (runCalls env order ⟨st.db, (getTokenizer env order st n).cache, st.defaultTok⟩ ns).2) := by
  rfl

theorem getTokenizer_step (env : Env) (order : List String) (fam : String)
    (hload : env.loadTokenizer (tokenizerPath env fam) ≠ none)
    (st : GridState) (name : String) :
    ((getTokenizer env order st name).loads.count (tokenizerPath env fam) = 0
      ∧ ((lookupA st.cache fam).isSome = true →
          (lookupA (getTokenizer env order st name).cache fam).isSome = true))
    ∨ ((getTokenizer env order st name).loads.count (tokenizerPath env fam) = 1
      ∧ lookupA st.cache fam = none
      ∧ (lookupA (getTokenizer env order st name).cache fam).isSome = true) := by
  unfold getTokenizer
  cases pySplitColon name with
  | none => exact Or.inl ⟨List.count_nil _, fun h => h⟩
  | some pt =>
    dsimp only
    cases detectFamily order pt.1 with
    | none => exact Or.inl ⟨List.count_nil _, fun h => h⟩
    | some g =>
      dsimp only
      cases hg : lookupA st.cache g with
      | some t => exact Or.inl ⟨List.count_nil _, fun h => h⟩
      | none =>
        dsimp only
        by_cases hex : env.pathExists (tokenizerPath env g) = true
        · rw [if_pos hex]
          cases hld : env.loadTokenizer (tokenizerPath env g) with
          | some t =>
            by_cases hgf : g = fam
            · subst hgf
              refine Or.inr ⟨by simp, hg, ?_⟩
              rw [lookupA_append, hg]
              dsimp only
              rw [lookupA_cons_self]
              rfl
            · refine Or.inl ⟨?_, ?_⟩
              · have hne : tokenizerPath env fam ≠ tokenizerPath env g :=
                  fun hEq => hgf (tokenizerPath_inj env g fam hEq.symm)
                exact List.count_eq_zero.mpr (by simpa using hne)
              · intro h
                rw [lookupA_append]
                obtain ⟨v, hv⟩ := Option.isSome_iff_exists.mp h
                rw [hv]
                rfl
          | none =>
            have hgf : g ≠ fam := fun hEq => hload (hEq ▸ hld)
            refine Or.inl ⟨?_, fun h => h⟩
            have hne : tokenizerPath env fam ≠ tokenizerPath env g :=
              fun hEq => hgf (tokenizerPath_inj env g fam hEq.symm)
            exact List.count_eq_zero.mpr (by simpa using hne)
        · rw [if_neg hex]
          exact Or.inl ⟨List.count_nil _, fun h => h⟩

theorem runCalls_count_le_one (env : Env) (order : List String) (fam : String)
    (hload : env.loadTokenizer (tokenizerPath env fam) ≠ none)
    (names : List String) :
    ∀ st : GridState,
      (runCalls env order st names).2.count (tokenizerPath env fam) ≤ 1
      ∧ ((lookupA st.cache fam).isSome = true →
          (runCalls env order st names).2.count (tokenizerPath env fam) = 0) := by
  induction names with
  | nil =>
    intro st
    exact ⟨by simp [runCalls], fun _ => by simp [runCalls]⟩
  | cons n ns ih =>
    intro st
    rw [runCalls_cons]
    rcases getTokenizer_step env order fam hload st n with ⟨hc0, hpres⟩ | ⟨hc1, hnone, hsome⟩
    · constructor
      · rw [List.count_append, hc0]
        simpa using
          (ih ⟨st.db, (getTokenizer env order st n).cache, st.defaultTok⟩).1
      · intro h
        rw [List.count_append, hc0,
          (ih ⟨st.db, (getTokenizer env order st n).cache, st.defaultTok⟩).2 (hpres h)]
    · constructor
      · rw [List.count_append, hc1,
          (ih ⟨st.db, (getTokenizer env order st n).cache, st.defaultTok⟩).2 hsome]
      · intro h
        rw [hnone] at h
        simp at h
    
/-- Claim C7: a cache hit for a detected family returns the cached instance
with no filesystem access and no load; and, when the family's bundled
tokenizer is loadable, any sequence of resolutions performs at most one
underlying load for it. -/
theorem tokenizer_cache_at_most_one_load (env : Env) (order : List String)
    (st : GridState) (fam : String) :
    (∀ (name : String) (pt : String × String) (t : Tokenizer),
        pySplitColon name = some pt →
        detectFamily order pt.1 = some fam →
        lookupA st.cache fam = some t →
        getTokenizer env order st name = ⟨some t, st.cache, [], []⟩)
    ∧ (env.loadTokenizer (tokenizerPath env fam) ≠ none →
        ∀ names : List String,
          (runCalls env order st names).2.count (tokenizerPath env fam) ≤ 1) := by
  constructor
  · intro name pt t hsplit hdet hcache
    unfold getTokenizer
    rw [hsplit]
    dsimp only
    rw [hdet]
    dsimp only
    rw [hcache]
  · intro hload names
    exact (runCalls_count_le_one env order fam hload names st).1

/-- Claim C7 witness: with a loadable `llama` tokenizer, resolving the two
identifiers `"llama3.1:latest"` and `"llama-3-8b:instruct"` performs at
most one load; and a second state whose cache already holds the family
returns the cached instance untouched. -/
theorem tokenizer_cache_witness :
    alwaysLoadEnv.loadTokenizer (tokenizerPath alwaysLoadEnv "llama") ≠ none
    ∧ (runCalls alwaysLoadEnv TOKENIZER_MAP ⟨[], [], none⟩
        ["llama3.1:latest", "llama-3-8b:instruct"]).2.count
        (tokenizerPath alwaysLoadEnv "llama") ≤ 1
    ∧ getTokenizer alwaysLoadEnv TOKENIZER_MAP
        ⟨[], [("llama", Tokenizer.noEnc)], none⟩ "llama3:x"
      = ⟨some Tokenizer.noEnc, [("llama", Tokenizer.noEnc)], [], []⟩ := by
  refine ⟨fun h => Option.noConfusion h, ?_, ?_⟩
  · exact (tokenizer_cache_at_most_one_load alwaysLoadEnv TOKENIZER_MAP ⟨[], [], none⟩
      "llama").2 (fun h => Option.noConfusion h) _
  · exact (tokenizer_cache_at_most_one_load alwaysLoadEnv TOKENIZER_MAP
      ⟨[], [("llama", Tokenizer.noEnc)], none⟩ "llama").1 "llama3:x" ("llama3", "x")
      Tokenizer.noEnc rfl rfl rfl

/-- Claim C9: when a detected family is not cached and its bundled path does
not exist or its instantiation fails, `_get_tokenizer` returns the default
tokenizer, leaves the cache unchanged, still performs the filesystem check,
and a repeated call on the resulting state behaves identically (the failure
is not cached). -/
theorem load_failure_falls_back (env : Env) (order : List String)
    (st : GridState) (name : String) (pt : String × String) (fam : String)
    (hsplit : pySplitColon name = some pt)
    (hdet : detectFamily order pt.1 = some fam)
    (hmiss : lookupA st.cache fam = none)
    (hfail : env.pathExists (tokenizerPath env fam) = false
      ∨ env.loadTokenizer (tokenizerPath env fam) = none) :
    (getTokenizer env order st name).tok = st.defaultTok
    ∧ (getTokenizer env order st name).cache = st.cache
    ∧ (getTokenizer env order st name).checks = [tokenizerPath env fam]
    ∧ getTokenizer env order
        ⟨st.db, (getTokenizer env order st name).cache, st.defaultTok⟩ name
      = getTokenizer env order st name := by
  have key : (getTokenizer env order st name).tok = st.defaultTok
      ∧ (getTokenizer env order st name).cache = st.cache
      ∧ (getTokenizer env order st name).checks = [tokenizerPath env fam] := by
    unfold getTokenizer
    rw [hsplit]
    dsimp only
    rw [hdet]
    dsimp only
    rw [hmiss]
    dsimp only
    rcases hfail with hf | hf
    · rw [if_neg (by rw [hf]; exact Bool.false_ne_true)]
      exact ⟨rfl, rfl, rfl⟩
    · by_cases hex : env.pathExists (tokenizerPath env fam) = true
      · rw [if_pos hex, hf]
        exact ⟨rfl, rfl, rfl⟩
      · rw [if_neg hex]
        exact ⟨rfl, rfl, rfl⟩
  refine ⟨key.1, key.2.1, key.2.2, ?_⟩
  rw [key.2.1]

/-- Claim C9 witness: with no bundled path on disk, `"mistral:7b"` falls
back to the default tokenizer after checking `"/tokenizers/mistral"`, and
the cache stays empty. -/
theorem load_failure_falls_back_witness :
    (getTokenizer failingFsEnv TOKENIZER_MAP ⟨[], [], some Tokenizer.noEnc⟩
      "mistral:7b").tok = some Tokenizer.noEnc
    ∧ (getTokenizer failingFsEnv TOKENIZER_MAP ⟨[], [], some Tokenizer.noEnc⟩
      "mistral:7b").cache = []
    ∧ (getTokenizer failingFsEnv TOKENIZER_MAP ⟨[], [], some Tokenizer.noEnc⟩
      "mistral:7b").checks = ["/tokenizers/mistral"] := by
  have h := load_failure_falls_back failingFsEnv TOKENIZER_MAP
    ⟨[], [], some Tokenizer.noEnc⟩ "mistral:7b" ("mistral", "7b") "mistral"
    rfl rfl rfl (Or.inl rfl)
  exact ⟨h.1, h.2.1, h.2.2.1⟩
